import Mathlib

/-!
Verification of the options-pattern HTTP client wrapper
(src/options_pattern/main.go) against its natural-language specification.

The configuration protocol (`Client`, the functional options, `NewClient`)
is translated directly from the Go source.  The HTTP transport collaborator
(Go's `net/http`) is external to the repository; the specification treats it
as a capability interface, so the pieces of it that the claims touch
(`http.NewRequest` target validation, redirect following in `http.Client.Do`)
are modelled from the specification's words and marked as such below.
-/

namespace OptionsPattern

/-- Nanoseconds in one second: `time.Second` of the Go standard library.
`time.Duration` is an `int64` count of nanoseconds; durations in this
program stay far from the overflow boundary, so `Int` models them. -/
def second : Int := 1000000000

/-- The transport slot of an `http.Client`.  `standard` is the `nil`
round-tripper the zero value `&http.Client{}` carries, which uses the
default certificate-verifying transport; `custom b` is the
`&http.Transport{TLSClientConfig: &tls.Config{InsecureSkipVerify: b}}`
value installed by `UseInsecureTransport` (with `b = true`). -/
inductive Transport where
  | standard : Transport
  | custom (insecureSkipVerify : Bool) : Transport
deriving DecidableEq, Repr

/-- Whether a transport verifies TLS certificates/hostnames. The standard
transport verifies; a custom transport verifies unless
`InsecureSkipVerify` is set. -/
def verifiesCertificates : Transport → Bool
  | Transport.standard => true
  | Transport.custom insecureSkipVerify => !insecureSkipVerify

/-- The `CheckRedirect` slot of an `http.Client`: `unset` is the `nil`
zero value; `fromClient b` is the closure `Get` installs, which returns
`http.ErrUseLastResponse` exactly when the wrapping client's
`followRedirects` field `b` is `false`. -/
inductive RedirectPolicy where
  | unset : RedirectPolicy
  | fromClient (followRedirects : Bool) : RedirectPolicy
deriving DecidableEq, Repr

/-- The mutable `http.Client` handle shared by all calls on one `Client`:
the fields of it this program touches (`Transport`, `Timeout`,
`CheckRedirect`).  The zero value `&http.Client{}` has the standard
transport, zero timeout and no redirect policy. -/
structure HTTPClient where
  transport : Transport
  timeout : Int
  checkRedirect : RedirectPolicy
deriving DecidableEq, Repr

/-- Structure `Client` from the source: the resolved configuration record plus the
shared `*http.Client` transport handle. -/
structure Client where
  client : HTTPClient
  timeout : Int
  userAgent : String
  followRedirects : Bool
deriving DecidableEq, Repr

/-- The source's `Option` functional-option type (`func(*Client)`),
renamed because `Option` is taken in Lean. -/
abbrev ClientOption := Client → Client

/-- Function `NewClient` from the source: seed the record with the defaults, then
apply every supplied option in the order given. -/
def NewClient (options : List ClientOption) : Client :=
  let client : Client :=
    { client := { transport := Transport.standard, timeout := 0,
                  checkRedirect := RedirectPolicy.unset }
      timeout := 30 * second
      userAgent := "My HTTP Client"
      followRedirects := true }
  options.foldl (fun c opt => opt c) client

/-- Option constructor `WithTimeout` from the source. -/
def WithTimeout (timeout : Int) : ClientOption :=
  fun c => { c with timeout := timeout }

/-- Option constructor `WithUserAgent` from the source. -/
def WithUserAgent (userAgent : String) : ClientOption :=
  fun c => { c with userAgent := userAgent }

/-- Option `WithoutRedirects` from the source (`WithoutRedirects()` in Go; the
unit application is elided). -/
def WithoutRedirects : ClientOption :=
  fun c => { c with followRedirects := false }

/-- Option `UseInsecureTransport` from the source: installs a fresh
`http.Transport` whose TLS configuration skips verification. -/
def UseInsecureTransport : ClientOption :=
  fun c => { c with client := { c.client with
               transport := Transport.custom true } }

/-- The four option constructors the source defines, as a syntactic type,
so that properties quantifying over "every sequence of the defined
options" can be stated. -/
inductive DefinedOption where
  | withTimeout (d : Int) : DefinedOption
  | withUserAgent (s : String) : DefinedOption
  | withoutRedirects : DefinedOption
  | useInsecureTransport : DefinedOption
deriving DecidableEq, Repr

/-- Interpretation of a `DefinedOption` as the source's option value. -/
def DefinedOption.toClientOption : DefinedOption → ClientOption
  | DefinedOption.withTimeout d => WithTimeout d
  | DefinedOption.withUserAgent s => WithUserAgent s
  | DefinedOption.withoutRedirects => WithoutRedirects
  | DefinedOption.useInsecureTransport => UseInsecureTransport

/-!
### The transport collaborator

`Get` delegates request parsing and execution to Go's `net/http`, which
the specification declares out of scope and describes as a capability
interface.  The definitions below model that interface from the
specification's words.
-/

/-- The error taxonomy of the specification (section 7). -/
inductive HttpError where
  | invalidRequestError : HttpError
  | timeoutError : HttpError
  | transportError : HttpError
deriving DecidableEq, Repr

/-- A request descriptor: method, target, and headers. -/
structure Request where
  method : String
  url : String
  headers : List (String × String)
deriving DecidableEq, Repr

/-- Method `Header.Set` of the collaborator: replaces any existing values for
the key with the single given value. -/
def setHeader (hs : List (String × String)) (k v : String) :
    List (String × String) :=
  hs.filter (fun p => p.1 != k) ++ [(k, v)]

/-- Look up the (unique, after `setHeader`) value of a header key. -/
def lookupHeader (hs : List (String × String)) (k : String) :
    Option String :=
  (hs.find? (fun p => p.1 == k)).map (fun p => p.2)

/-- An HTTP response: status code, headers, body. -/
structure Response where
  statusCode : Nat
  headers : List (String × String)
  body : String
deriving DecidableEq, Repr

/-- Modelled from the spec: the network side of the transport
collaborator, as a capability interface — for each request target it
either produces a response or fails with a transport-level error. -/
def Network := String → Except HttpError Response

/-- Helper: `true` iff the character list is `scheme ++ "://" ++ rest`
with a nonempty scheme, `seen` recording whether a scheme character has
been consumed already. -/
def hasSchemeFrom : Bool → List Char → Bool
  | _, [] => false
  | seen, ':' :: '/' :: '/' :: _ => seen
  | _, _ :: rest => hasSchemeFrom true rest

/-- Modelled from the spec: the collaborator's request-target
well-formedness check used by `http.NewRequest` — a well-formed target
has a nonempty scheme followed by "://" (the spec's examples of
malformed targets are the empty string and a string with no scheme). -/
def isWellFormedTarget (url : String) : Bool :=
  hasSchemeFrom false url.toList

/-- Modelled from the spec: `http.NewRequest` of the collaborator —
builds a request descriptor for the target, failing with
`InvalidRequestError` on a malformed target. -/
def NewRequest (method url : String) : Except HttpError Request :=
  if isWellFormedTarget url then
    Except.ok { method := method, url := url, headers := [] }
  else
    Except.error HttpError.invalidRequestError

/-- The redirect status codes the collaborator auto-follows. -/
def isRedirectStatus (code : Nat) : Bool :=
  code == 301 || code == 302 || code == 303 || code == 307 || code == 308

/-- Modelled from the spec: the redirect loop of the collaborator's
`Do`.  Fetches the target; a non-redirect response (or a network error)
is returned, counting one fetch.  On a redirect response: with
`followRedirects = false` the installed policy says to stop and return
that response as-is; with `followRedirects = true` the `Location` target
is followed, fueled by the collaborator's redirect-loop bound.  Returns
the number of network fetches issued together with the result. -/
def doFollow (net : Network) (followRedirects : Bool) :
    Nat → String → Nat × Except HttpError Response
  | 0, _ => (0, Except.error HttpError.transportError)
  | fuel + 1, url =>
    match net url with
    | Except.error e => (1, Except.error e)
    | Except.ok resp =>
      if isRedirectStatus resp.statusCode then
        if followRedirects then
          match lookupHeader resp.headers "Location" with
          | some loc =>
            let r := doFollow net followRedirects fuel loc
            (r.1 + 1, r.2)
          | none => (1, Except.ok resp)
        else (1, Except.ok resp)
      else (1, Except.ok resp)

/-- The redirect-loop bound of the collaborator (`net/http` stops after
10 redirects). -/
def maxRedirectFuel : Nat := 10

/-- The observable outcome of one `Get` call: the state of the `Client`
(including the shared transport handle) after the call, the request
descriptor handed to the collaborator (if any), how many network fetches
were issued, and the returned response or error. -/
structure GetResult where
  client : Client
  sentRequest : Option Request
  networkCalls : Nat
  result : Except HttpError Response
deriving Repr

/-- Method `Get` from the source, over a `Network` model of the collaborator:
build the request (early return on a malformed target), set the
`User-Agent` header to the configured user agent, write the configured
timeout and the redirect policy onto the shared `http.Client` handle,
and invoke the collaborator. -/
def Get (net : Network) (c : Client) (url : String) : GetResult :=
  match NewRequest "GET" url with
  | Except.error e =>
    { client := c
      sentRequest := none
      networkCalls := 0
      result := Except.error e }
  | Except.ok req₀ =>
    let req : Request :=
      { req₀ with headers := setHeader req₀.headers "User-Agent" c.userAgent }
    let handle : HTTPClient :=
      { c.client with
        timeout := c.timeout
        checkRedirect := RedirectPolicy.fromClient c.followRedirects }
    let r := doFollow net c.followRedirects maxRedirectFuel req.url
    { client := { c with client := handle }
      sentRequest := some req
      networkCalls := r.1
      result := r.2 }

end OptionsPattern

namespace OptionsPattern

/-! Claim C1: defaults of the empty option sequence -/

/-- Claim C1: for the empty option sequence, `NewClient` returns a client
whose resolved configuration has timeout 30 seconds, user agent
"My HTTP Client", `followRedirects = true`, and the standard
certificate-verifying transport. -/
theorem newClient_nil_defaults :
    (NewClient []).timeout = 30 * second ∧
    (NewClient []).userAgent = "My HTTP Client" ∧
    (NewClient []).followRedirects = true ∧
    (NewClient []).client.transport = Transport.standard ∧
    verifiesCertificates (NewClient []).client.transport = true := by
  refine ⟨rfl, rfl, rfl, rfl, rfl⟩

/-! Claim C2: strict application order, last write wins -/

/-- Claim C2: options are applied strictly in the order given, so a later
option setting the same field determines the resolved value: composing
two `WithTimeout` (or two `WithUserAgent`) applications keeps only the
later one, a trailing `WithTimeout d` always resolves the timeout to `d`,
and in particular `[WithTimeout 5s, WithTimeout 10s]` resolves to a
10-second timeout. -/
theorem newClient_last_write_wins :
    (∀ (c : Client) (d₁ d₂ : Int),
        WithTimeout d₂ (WithTimeout d₁ c) = WithTimeout d₂ c) ∧
    (∀ (c : Client) (s₁ s₂ : String),
        WithUserAgent s₂ (WithUserAgent s₁ c) = WithUserAgent s₂ c) ∧
    (∀ (os : List ClientOption) (d : Int),
        (NewClient (os ++ [WithTimeout d])).timeout = d) ∧
    (NewClient [WithTimeout (5 * second), WithTimeout (10 * second)]).timeout
      = 10 * second := by
  refine ⟨fun c d₁ d₂ => rfl, fun c s₁ s₂ => rfl, fun os d => ?_, rfl⟩
  simp [NewClient, List.foldl_append, WithTimeout]

/-! Claim C3: insecure transport is a destructive override -/

/-- Claim C3: `UseInsecureTransport` replaces the transport settings with
the verification-skipping variant regardless of the starting record, so
applied after any sequence of options (in particular after any option
that customized the transport) the resolved configuration holds exactly
the insecure transport, and the prior customization is discarded. -/
theorem useInsecureTransport_destructive_override :
    (∀ c : Client,
        (UseInsecureTransport c).client.transport = Transport.custom true) ∧
    (∀ c : Client,
        verifiesCertificates (UseInsecureTransport c).client.transport
          = false) ∧
    (∀ os : List ClientOption,
        (NewClient (os ++ [UseInsecureTransport])).client.transport
          = Transport.custom true) := by
  refine ⟨fun c => rfl, fun c => rfl, fun os => ?_⟩
  simp [NewClient, List.foldl_append, UseInsecureTransport]

/-! Claim C7: each option writes only its documented field -/

/-- Claim C7: each defined option writes only the field it is documented
to affect: `WithTimeout d` changes only `timeout`, `WithUserAgent s` only
`userAgent`, `WithoutRedirects` only `followRedirects`, and
(`UseInsecureTransport` only the handle's transport); every other field
keeps its prior value. -/
theorem options_frame_conditions :
    (∀ (c : Client) (d : Int),
        (WithTimeout d c).timeout = d ∧
        (WithTimeout d c).userAgent = c.userAgent ∧
        (WithTimeout d c).followRedirects = c.followRedirects ∧
        (WithTimeout d c).client = c.client) ∧
    (∀ (c : Client) (s : String),
        (WithUserAgent s c).userAgent = s ∧
        (WithUserAgent s c).timeout = c.timeout ∧
        (WithUserAgent s c).followRedirects = c.followRedirects ∧
        (WithUserAgent s c).client = c.client) ∧
    (∀ c : Client,
        (WithoutRedirects c).followRedirects = false ∧
        (WithoutRedirects c).timeout = c.timeout ∧
        (WithoutRedirects c).userAgent = c.userAgent ∧
        (WithoutRedirects c).client = c.client) ∧
    (∀ c : Client,
        (UseInsecureTransport c).timeout = c.timeout ∧
        (UseInsecureTransport c).userAgent = c.userAgent ∧
        (UseInsecureTransport c).followRedirects = c.followRedirects ∧
        (UseInsecureTransport c).client.timeout = c.client.timeout ∧
        (UseInsecureTransport c).client.checkRedirect
          = c.client.checkRedirect) := by
  exact ⟨fun c d => ⟨rfl, rfl, rfl, rfl⟩,
         fun c s => ⟨rfl, rfl, rfl, rfl⟩,
         fun c => ⟨rfl, rfl, rfl, rfl⟩,
         fun c => ⟨rfl, rfl, rfl, rfl, rfl⟩⟩

/-! Claims C4, C5, C6, C10: request execution -/

/-- Unfolding `Get` on a well-formed target: the collaborator is invoked
on the target with the client's redirect policy and the loop bound. -/
theorem Get_wellFormed (net : Network) (c : Client) (url : String)
    (h : isWellFormedTarget url = true) :
    (Get net c url).result
        = (doFollow net c.followRedirects maxRedirectFuel url).2 ∧
    (Get net c url).networkCalls
        = (doFollow net c.followRedirects maxRedirectFuel url).1 := by
  simp [Get, NewRequest, h]

/-- One step of the redirect loop. -/
theorem doFollow_succ (net : Network) (b : Bool) (fuel : Nat)
    (url : String) :
    doFollow net b (fuel + 1) url =
      match net url with
      | Except.error e => (1, Except.error e)
      | Except.ok resp =>
        if isRedirectStatus resp.statusCode then
          if b then
            match lookupHeader resp.headers "Location" with
            | some loc =>
              let r := doFollow net b fuel loc
              (r.1 + 1, r.2)
            | none => (1, Except.ok resp)
          else (1, Except.ok resp)
        else (1, Except.ok resp) := rfl

/-- Claim C4: `Get` applies the client's redirect policy at call time:
when `followRedirects` is false and the endpoint answers the target with
a 3xx redirect response, `Get` returns that response as-is (one fetch,
no error); when `followRedirects` is true, the redirect's `Location`
target is followed per the collaborator's standard semantics. -/
theorem get_redirect_policy (net : Network) (c : Client) (url : String)
    (resp : Response)
    (hu : isWellFormedTarget url = true)
    (hn : net url = Except.ok resp)
    (hr : isRedirectStatus resp.statusCode = true) :
    (c.followRedirects = false →
        (Get net c url).result = Except.ok resp ∧
        (Get net c url).networkCalls = 1) ∧
    (c.followRedirects = true →
        ∀ loc, lookupHeader resp.headers "Location" = some loc →
          (Get net c url).result
            = (doFollow net true (maxRedirectFuel - 1) loc).2) := by
  have hg := Get_wellFormed net c url hu
  have hstep :
      doFollow net c.followRedirects maxRedirectFuel url
        = doFollow net c.followRedirects (9 + 1) url := rfl
  constructor
  · intro hf
    rw [hg.1, hg.2, hstep, doFollow_succ, hn, hf]
    simp [hr]
  · intro hf loc hloc
    rw [hg.1, hstep, doFollow_succ, hn, hf]
    simp [hr, hloc]
    rfl

/-- A network whose every endpoint redirects `https://a` to `https://b`
and serves a plain 200 at `https://b`. -/
def redirNet : Network := fun url =>
  if url == "https://b" then
    Except.ok { statusCode := 200, headers := [], body := "done" }
  else
    Except.ok { statusCode := 302
                headers := [("Location", "https://b")]
                body := "" }

/-- The 3xx response `redirNet` serves at `https://a`. -/
def resp302 : Response :=
  { statusCode := 302, headers := [("Location", "https://b")], body := "" }

/-- Witness for claim C4 at a concrete network, client and target, in
both redirect-policy modes. -/
theorem get_redirect_policy_witness :
    (Get redirNet (NewClient [WithoutRedirects]) "https://a").result
        = Except.ok resp302 ∧
    (Get redirNet (NewClient []) "https://a").result
        = (doFollow redirNet true (maxRedirectFuel - 1) "https://b").2 :=
  ⟨((get_redirect_policy redirNet (NewClient [WithoutRedirects]) "https://a"
      resp302 rfl rfl rfl).1 rfl).1,
   (get_redirect_policy redirNet (NewClient []) "https://a"
      resp302 rfl rfl rfl).2 rfl "https://b" rfl⟩

/-- Claim C5: on a malformed request target, `Get` fails with
`InvalidRequestError` and the transport collaborator is never invoked. -/
theorem get_malformed_target_fails (net : Network) (c : Client)
    (url : String) (h : isWellFormedTarget url = false) :
    (Get net c url).result = Except.error HttpError.invalidRequestError ∧
    (Get net c url).networkCalls = 0 := by
  simp [Get, NewRequest, h]

/-- A network that fails every fetch with a transport error. -/
def deadNet : Network := fun _ => Except.error HttpError.transportError

/-- Witness for claim C5 at the empty target string. -/
theorem get_malformed_target_fails_witness :
    isWellFormedTarget "" = false ∧
    (Get deadNet (NewClient []) "").result
        = Except.error HttpError.invalidRequestError ∧
    (Get deadNet (NewClient []) "").networkCalls = 0 :=
  ⟨rfl, (get_malformed_target_fails deadNet (NewClient []) "" rfl).1,
    (get_malformed_target_fails deadNet (NewClient []) "" rfl).2⟩

/-- Claim C6: `Get` hands the collaborator a request whose `User-Agent`
header is exactly the client's configured user agent; in particular when
the configured user agent is the empty string the header is present with
an empty value rather than omitted. -/
theorem get_sets_user_agent (net : Network) (c : Client) (url : String)
    (h : isWellFormedTarget url = true) :
    ∃ r : Request, (Get net c url).sentRequest = some r ∧
      lookupHeader r.headers "User-Agent" = some c.userAgent := by
  refine ⟨{ method := "GET", url := url
            headers := [("User-Agent", c.userAgent)] }, ?_, ?_⟩
  · simp [Get, NewRequest, h, setHeader]
  · simp [lookupHeader]

/-- Witness for claim C6, with an empty configured user agent: the header
is present with an empty value. -/
theorem get_sets_user_agent_witness :
    isWellFormedTarget "https://a" = true ∧
    ∃ r : Request,
      (Get deadNet (NewClient [WithUserAgent ""]) "https://a").sentRequest
          = some r ∧
      lookupHeader r.headers "User-Agent" = some "" :=
  ⟨rfl, get_sets_user_agent deadNet (NewClient [WithUserAgent ""])
    "https://a" rfl⟩

/-- Claim C10: when `Get` fails on a malformed target it returns before
writing anything: the shared transport handle's per-call timeout and
redirect-policy slots, and every field of the `Client`, are unchanged,
no request descriptor is built, and no network fetch is issued. -/
theorem get_malformed_target_state_unchanged (net : Network) (c : Client)
    (url : String) (h : isWellFormedTarget url = false) :
    (Get net c url).client = c ∧
    (Get net c url).sentRequest = none ∧
    (Get net c url).networkCalls = 0 := by
  simp [Get, NewRequest, h]

/-- Witness for claim C10 at a concrete client and schemeless target. -/
theorem get_malformed_target_state_unchanged_witness :
    isWellFormedTarget "example.com" = false ∧
    (Get redirNet (NewClient [WithTimeout (5 * second)]) "example.com").client
        = NewClient [WithTimeout (5 * second)] ∧
    (Get redirNet (NewClient [WithTimeout (5 * second)])
        "example.com").sentRequest = none :=
  ⟨rfl,
   (get_malformed_target_state_unchanged redirNet
      (NewClient [WithTimeout (5 * second)]) "example.com" rfl).1,
   (get_malformed_target_state_unchanged redirNet
      (NewClient [WithTimeout (5 * second)]) "example.com" rfl).2.1⟩

/-! Claim C9: no error path in construction -/

/-- Claim C9: client construction has no error path: `NewClient` is a
total function of the option sequence, returning the `Client` wrapping
the record obtained by folding every option, in order, over the default
record (the result of `NewClient []`, which carries the fresh transport
handle). -/
theorem newClient_total :
    ∀ os : List ClientOption,
      NewClient os = os.foldl (fun c opt => opt c) (NewClient []) := by
  intro os
  rfl

/-! Claim C8: applying a sequence twice equals applying it once -/

/-- Fold a sequence of the defined options over a client record. -/
def applyDefined (os : List DefinedOption) (c : Client) : Client :=
  os.foldl (fun c o => o.toClientOption c) c

/-- The effect of one defined option on the `timeout` field. -/
def stepTimeout : DefinedOption → Int → Int
  | DefinedOption.withTimeout d, _ => d
  | _, t => t

/-- The effect of one defined option on the `userAgent` field. -/
def stepUserAgent : DefinedOption → String → String
  | DefinedOption.withUserAgent s, _ => s
  | _, u => u

/-- The effect of one defined option on the `followRedirects` field. -/
def stepFollow : DefinedOption → Bool → Bool
  | DefinedOption.withoutRedirects, _ => false
  | _, b => b

/-- The effect of one defined option on the transport handle. -/
def stepHandle : DefinedOption → HTTPClient → HTTPClient
  | DefinedOption.useInsecureTransport, h =>
      { h with transport := Transport.custom true }
  | _, h => h

/-- The `timeout` field resolved by a sequence of defined options. -/
def resolveTimeout (os : List DefinedOption) (t : Int) : Int :=
  os.foldl (fun t o => stepTimeout o t) t

/-- The `userAgent` field resolved by a sequence of defined options. -/
def resolveUserAgent (os : List DefinedOption) (u : String) : String :=
  os.foldl (fun u o => stepUserAgent o u) u

/-- The `followRedirects` field resolved by a sequence of defined
options. -/
def resolveFollow (os : List DefinedOption) (b : Bool) : Bool :=
  os.foldl (fun b o => stepFollow o b) b

/-- The transport handle resolved by a sequence of defined options. -/
def resolveHandle (os : List DefinedOption) (h : HTTPClient) : HTTPClient :=
  os.foldl (fun h o => stepHandle o h) h

/-- Applying a sequence of defined options acts on each field
independently, through the per-field resolvers. -/
theorem applyDefined_eq (os : List DefinedOption) (c : Client) :
    applyDefined os c =
      { client := resolveHandle os c.client
        timeout := resolveTimeout os c.timeout
        userAgent := resolveUserAgent os c.userAgent
        followRedirects := resolveFollow os c.followRedirects } := by
  induction os generalizing c with
  | nil => rfl
  | cons o os ih =>
    calc applyDefined (o :: os) c
        = applyDefined os (o.toClientOption c) := rfl
      _ = { client := resolveHandle os (o.toClientOption c).client
            timeout := resolveTimeout os (o.toClientOption c).timeout
            userAgent := resolveUserAgent os (o.toClientOption c).userAgent
            followRedirects :=
              resolveFollow os (o.toClientOption c).followRedirects } :=
        ih (o.toClientOption c)
      _ = { client := resolveHandle (o :: os) c.client
            timeout := resolveTimeout (o :: os) c.timeout
            userAgent := resolveUserAgent (o :: os) c.userAgent
            followRedirects := resolveFollow (o :: os) c.followRedirects } := by
        cases o <;> rfl

/-- A defined-option sequence either determines the timeout outright or
leaves it untouched. -/
theorem resolveTimeout_cases (os : List DefinedOption) :
    (∀ t t' : Int, resolveTimeout os t = resolveTimeout os t') ∨
    (∀ t : Int, resolveTimeout os t = t) := by
  induction os with
  | nil => exact Or.inr fun t => rfl
  | cons o os ih =>
    cases o with
    | withTimeout d => exact Or.inl fun t t' => rfl
    | withUserAgent s => exact ih
    | withoutRedirects => exact ih
    | useInsecureTransport => exact ih

/-- A defined-option sequence either determines the user agent outright
or leaves it untouched. -/
theorem resolveUserAgent_cases (os : List DefinedOption) :
    (∀ u u' : String, resolveUserAgent os u = resolveUserAgent os u') ∨
    (∀ u : String, resolveUserAgent os u = u) := by
  induction os with
  | nil => exact Or.inr fun u => rfl
  | cons o os ih =>
    cases o with
    | withTimeout d => exact ih
    | withUserAgent s => exact Or.inl fun u u' => rfl
    | withoutRedirects => exact ih
    | useInsecureTransport => exact ih

/-- A defined-option sequence either determines the redirect flag
outright or leaves it untouched. -/
theorem resolveFollow_cases (os : List DefinedOption) :
    (∀ b b' : Bool, resolveFollow os b = resolveFollow os b') ∨
    (∀ b : Bool, resolveFollow os b = b) := by
  induction os with
  | nil => exact Or.inr fun b => rfl
  | cons o os ih =>
    cases o with
    | withTimeout d => exact ih
    | withUserAgent s => exact ih
    | withoutRedirects => exact Or.inl fun b b' => rfl
    | useInsecureTransport => exact ih

/-- A defined-option sequence either forces the insecure transport onto
the handle or leaves the handle untouched. -/
theorem resolveHandle_cases (os : List DefinedOption) :
    (∀ h : HTTPClient,
        resolveHandle os h = { h with transport := Transport.custom true }) ∨
    (∀ h : HTTPClient, resolveHandle os h = h) := by
  induction os with
  | nil => exact Or.inr fun h => rfl
  | cons o os ih =>
    cases o with
    | withTimeout d => exact ih
    | withUserAgent s => exact ih
    | withoutRedirects => exact ih
    | useInsecureTransport =>
      refine Or.inl fun h => ?_
      rcases ih with hc | hc
      · calc resolveHandle os { h with transport := Transport.custom true }
            = { { h with transport := Transport.custom true } with
                transport := Transport.custom true } := hc _
          _ = { h with transport := Transport.custom true } := rfl
      · exact hc _

/-- Resolving the timeout twice equals resolving it once. -/
theorem resolveTimeout_idem (os : List DefinedOption) (t : Int) :
    resolveTimeout os (resolveTimeout os t) = resolveTimeout os t := by
  rcases resolveTimeout_cases os with h | h
  · exact h _ t
  · rw [h, h]

/-- Resolving the user agent twice equals resolving it once. -/
theorem resolveUserAgent_idem (os : List DefinedOption) (u : String) :
    resolveUserAgent os (resolveUserAgent os u) = resolveUserAgent os u := by
  rcases resolveUserAgent_cases os with h | h
  · exact h _ u
  · rw [h, h]

/-- Resolving the redirect flag twice equals resolving it once. -/
theorem resolveFollow_idem (os : List DefinedOption) (b : Bool) :
    resolveFollow os (resolveFollow os b) = resolveFollow os b := by
  rcases resolveFollow_cases os with h | h
  · exact h _ b
  · rw [h, h]

/-- Resolving the handle twice equals resolving it once. -/
theorem resolveHandle_idem (os : List DefinedOption) (h : HTTPClient) :
    resolveHandle os (resolveHandle os h) = resolveHandle os h := by
  rcases resolveHandle_cases os with hc | hc
  · simp [hc]
  · simp [hc]

/-- Applying a defined-option sequence twice equals applying it once. -/
theorem applyDefined_idem (os : List DefinedOption) (c : Client) :
    applyDefined os (applyDefined os c) = applyDefined os c := by
  rw [applyDefined_eq os (applyDefined os c), applyDefined_eq os c]
  simp [resolveHandle_idem, resolveTimeout_idem, resolveUserAgent_idem,
        resolveFollow_idem]

/-- Claim C8: for every sequence `O` of the defined options, building a
client from `O ++ O` yields the same resolved configuration as building
it from `O`; in particular `WithoutRedirects` applied repeatedly is
idempotent. -/
theorem newClient_append_self_idem :
    (∀ O : List DefinedOption,
        NewClient ((O ++ O).map DefinedOption.toClientOption)
          = NewClient (O.map DefinedOption.toClientOption)) ∧
    (∀ c : Client, WithoutRedirects (WithoutRedirects c) = WithoutRedirects c) := by
  constructor
  · intro O
    have key : ∀ os : List DefinedOption,
        NewClient (os.map DefinedOption.toClientOption)
          = applyDefined os (NewClient []) := by
      intro os
      simp [NewClient, applyDefined, List.foldl_map]
    rw [key (O ++ O), key O]
    have : applyDefined (O ++ O) (NewClient [])
        = applyDefined O (applyDefined O (NewClient [])) := by
      simp [applyDefined, List.foldl_append]
    rw [this, applyDefined_idem]
  · intro c
    rfl

end OptionsPattern
